import Mathlib

/-!
A shallow embedding of the marbles library (src/marbles/marbles.py): the
annotation normalization and validation layer of AnnotatedTestCase, the
assertion interception wrapper built by its attribute hook, and the
AnnotatedAssertionError failure object with its stack capture, source
reconstruction, and message formatting pipeline.  Definitions are
translated from the Python source; the theorems settle the
specification claims about that source.
-/

namespace Marbles

/-- Characters of a Python string; the source reconstruction pipeline is
modelled at this level so that join and split on newlines are exact. -/
abbrev Chars := List Char

/-- Python exceptions that the embedded code can raise.  The two
AnnotationError shapes carry their payload structurally (Python renders
the missing set and the offending type into the message text). -/
inductive PyErr where
  | keyError (k : String)
  | typeError (m : String)
  | unboundLocal (name : String)
  | attributeError (m : String)
  | indexError (m : String)
  | annotationMissingFields (missing : List String)
  | annotationTypeNotSupported (typeName : String)

/-- AnnotatedAssertionError.REQUIRED_KEYS = ('message', 'advice'). -/
def REQUIRED_KEYS : List String := ["message", "advice"]

/-- AnnotatedAssertionError._IGNORE_LOCALS = ['message', 'advice', 'self']. -/
def IGNORE_LOCALS : List String := ["message", "advice", "self"]

/-- Python values as seen by the annotation layer: strings, tuples
(standing for any non-string ordered sequence), dicts with string keys
(standing for mappings), and anything else, carrying its type name. -/
inductive PyVal where
  | str (s : String)
  | tup (elems : List PyVal)
  | dict (entries : List (String × PyVal))
  | other (typeName : String)

/-- isinstance(x, collections.abc.Sequence): Python registers str as a
Sequence, so strings satisfy this check as well as tuples and lists. -/
def isPySeq : PyVal → Bool
  | .str _ => true
  | .tup _ => true
  | _ => false

/-- isinstance(x, collections.abc.Mapping). -/
def isPyMap : PyVal → Bool
  | .dict _ => true
  | _ => false

/-- type(x) as named in error messages. -/
def pyTypeName : PyVal → String
  | .str _ => "str"
  | .tup _ => "tuple"
  | .dict _ => "dict"
  | .other t => t

/-- Iterating a Python sequence: a string yields its one-character
strings, a tuple yields its elements. -/
def seqElems : PyVal → List PyVal
  | .str s => s.data.map (fun c => PyVal.str (String.mk [c]))
  | .tup xs => xs
  | _ => []

/-- The entries of a Python mapping. -/
def dictEntries : PyVal → List (String × PyVal)
  | .dict m => m
  | _ => []

/-- AnnotatedTestCase._coerce_annotation_dict (marbles.py lines 264-278):
a Sequence is zipped against REQUIRED_KEYS into a dict, a Mapping is
returned as-is, anything else raises AnnotationError naming the type. -/
def coerceAnnotationDict (annot : PyVal) : Except PyErr (List (String × PyVal)) :=
  if isPySeq annot then
    .ok (List.zip REQUIRED_KEYS (seqElems annot))
  else if isPyMap annot then
    .ok (dictEntries annot)
  else
    .error (.annotationTypeNotSupported (pyTypeName annot))

/-- AnnotatedTestCase._validate_annotation (marbles.py lines 280-287):
missing = set(REQUIRED_KEYS).difference(set(annotation.keys())); raise
if missing is non-empty, naming every missing key in the one error. -/
def validateAnnot (annot : List (String × PyVal)) : Except PyErr Unit :=
  let missing := REQUIRED_KEYS.filter (fun k => !(annot.map Prod.fst).contains k)
  if missing = [] then .ok () else .error (.annotationMissingFields missing)

/-- The call the wrapper forwards to the wrapped assertion method:
attr(*args, msg=annotation, **kwargs). -/
structure CallSpec where
  args : List PyVal
  kwargs : List (String × PyVal)
  msgAnnot : List (String × PyVal)

/-- The wrapper that AnnotatedTestCase.__getattribute__ (marbles.py
lines 316-334) installs around every assert* method, acting on one
call: pop message/advice keywords into a bundle if present, otherwise
take a legacy msg keyword, otherwise take (and remove) the trailing
positional argument; coerce, validate, and forward. -/
def wrapperCall (args : List PyVal) (kwargs : List (String × PyVal)) : Except PyErr CallSpec :=
  if kwargs.any (fun kv => REQUIRED_KEYS.contains kv.1) then
    let bundle := kwargs.filter (fun kv => REQUIRED_KEYS.contains kv.1)
    let rest := kwargs.filter (fun kv => !REQUIRED_KEYS.contains kv.1)
    match coerceAnnotationDict (.dict bundle) with
    | .error e => .error e
    | .ok annot =>
      match validateAnnot annot with
      | .error e => .error e
      | .ok _ => .ok ⟨args, rest, annot⟩
  else
    match kwargs.lookup "msg" with
    | some m =>
      let rest := kwargs.filter (fun kv => kv.1 ≠ "msg")
      match coerceAnnotationDict m with
      | .error e => .error e
      | .ok annot =>
        match validateAnnot annot with
        | .error e => .error e
        | .ok _ => .ok ⟨args, rest, annot⟩
    | none =>
      match args.getLast? with
      | none => .error (.indexError "tuple index out of range")
      | some m =>
        match coerceAnnotationDict m with
        | .error e => .error e
        | .ok annot =>
          match validateAnnot annot with
          | .error e => .error e
          | .ok _ => .ok ⟨args.dropLast, kwargs, annot⟩

/-- The symmetric set difference between two key lists, written from
the wording of the claim (for comparison with the one-sided difference
the source computes). -/
def symmDiff (a b : List String) : List String :=
  a.filter (fun k => !b.contains k) ++ b.filter (fun k => !a.contains k)

/-- Concrete annotation mapping with both required keys plus an extra
key, used to separate the two difference notions. -/
def c3Ann : List (String × PyVal) :=
  [("message", .str "m"), ("advice", .str "a"), ("extra", .str "e")]

/-- Concrete forwarded call used to witness the amended C3 statement. -/
def c3WitnessArgs : List PyVal := [.str "True", .tup [.str "m", .str "a"]]

/-- Keyword arguments for the C3 witness call (none). -/
def c3WitnessKwargs : List (String × PyVal) := []

/-- The call spec wrapperCall produces for the C3 witness input. -/
def c3WitnessCS : CallSpec :=
  ⟨[.str "True"], [], [("message", .str "m"), ("advice", .str "a")]⟩

/-- Arguments of the C4 witness call: a trailing positional annotation
is supplied together with message=/advice= keywords. -/
def c4WitnessArgs : List PyVal := [.str "True", .tup [.str "pm", .str "pa"]]

/-- Keyword arguments of the C4 witness call. -/
def c4WitnessKwargs : List (String × PyVal) :=
  [("message", .str "km"), ("advice", .str "ka")]

/-- The call spec wrapperCall produces for the C4 witness input. -/
def c4WitnessCS : CallSpec :=
  ⟨c4WitnessArgs, [], c4WitnessKwargs⟩

/-- Split a character list at newline characters, the way Python
str.split(chr(10)) splits a string: n newlines give n+1 pieces. -/
def splitNl : Chars → List Chars
  | [] => [[]]
  | c :: cs =>
    match splitNl cs with
    | [] => [[]]
    | r :: rs => if c = '\n' then [] :: r :: rs else (c :: r) :: rs

/-- Join character lists with newline separators, the way the newline
string joins a list in Python. -/
def joinNl : List Chars → Chars
  | [] => []
  | [l] => l
  | l :: ls => l ++ '\n' :: joinNl ls

/-- Whitespace characters relevant to textwrap.dedent. -/
def isWsChar (c : Char) : Bool := c = ' ' || c = '\t'

/-- First normalization step of textwrap.dedent: a non-empty line made
only of whitespace is replaced by an empty line. -/
def blankWsOnly (l : Chars) : Chars :=
  if !l.isEmpty && l.all isWsChar then [] else l

/-- Longest shared leading run of two character lists, the fallback in
textwrap.dedent margin refinement. -/
def sharedStart : Chars → Chars → Chars
  | a :: as, b :: bs => if a = b then a :: sharedStart as bs else []
  | _, _ => []

/-- One step of the textwrap.dedent margin fold over the leading
whitespace of the lines that carry non-whitespace characters. -/
def marginStep (margin : Option Chars) (indent : Chars) : Option Chars :=
  match margin with
  | none => some indent
  | some m =>
    if m.isPrefixOf indent then some m
    else if indent.isPrefixOf m then some indent
    else some (sharedStart m indent)

/-- textwrap.dedent transcribed line by line: blank out whitespace-only
lines, compute the common whitespace margin of the remaining lines, and
strip it from every line that starts with it. -/
def dedentLines (ls : List Chars) : List Chars :=
  let blanked := ls.map blankWsOnly
  let indents := (blanked.filter (fun l => !l.all isWsChar)).map (fun l => l.takeWhile isWsChar)
  match indents.foldl marginStep none with
  | some m => if !m.isEmpty then
      blanked.map (fun l => if m.isPrefixOf l then l.drop m.length else l)
    else blanked
  | none => blanked

/-- A node of the walked syntax tree: whether it is an ast.stmt, and
its lineno attribute when it has one. -/
structure AstNode where
  isStmt : Bool
  lineno? : Option Int

/-- The loop of _get_source over ast.walk output (marbles.py lines
203-210): track the most recent statement node; at the first node whose
lineno equals the reported line, stop with the tracked statement.  none
means the loop finished without a break (so the later use of the names
source and line_range raises UnboundLocalError); some none means the
break fired before any statement was tracked. -/
def walkFind (linenumber : Int) : List AstNode → Option AstNode → Option (Option AstNode)
  | [], _ => none
  | n :: ns, stmt =>
    let stmt1 := if n.isStmt then some n else stmt
    if n.lineno? = some linenumber then some stmt1 else walkFind linenumber ns stmt1

/-- linecache.getline: the 1-based line with its trailing newline, or
the empty string outside the file. -/
def getline (lines : List Chars) (x : Int) : Chars :=
  if 1 ≤ x ∧ x ≤ (lines.length : Int) then lines.getD (x - 1).toNat [] ++ ['\n'] else []

/-- Python range(a, b) over integers: a, a+1, ..., b-1. -/
def rangeInt (a b : Int) : List Int := (List.range (b - a).toNat).map (fun i => a + (i : Int))

/-- Right-justify the decimal rendering of an integer in four columns,
as the 4d format directive does. -/
def padInt4 (i : Int) : Chars :=
  let s := (toString i).data
  List.replicate (4 - s.length) ' ' ++ s

/-- Render one excerpt line (marbles.py lines 216-218): a space, then a
greater-than marker on the statement's first line or a space, then a
space, the 4-column line number, a space, and the dedented text. -/
def formatSourceLine (stmtLine : Int) (p : Int × Chars) : Chars :=
  [' ', if p.1 = stmtLine then '>' else ' ', ' '] ++ padInt4 p.1 ++ ' ' :: p.2

/-- The excerpt _get_source builds once the enclosing statement is
known (marbles.py lines 207-220): the line range from the statement's
first line minus leading up to (and excluding) linenumber plus
following, the cached lines over that range, joined, dedented, split
with the trailing empty piece dropped, then zipped back against the
range and rendered. -/
def renderSource (lines : List Chars) (sl linenumber leading following : Int) : Chars :=
  let lineRange := rangeInt (sl - leading) (linenumber + following)
  let source := lineRange.map (getline lines)
  let dedented := (dedentLines (splitNl source.flatten)).dropLast
  joinNl ((List.zip lineRange dedented).map (formatSourceLine sl))

/-- AnnotatedAssertionError._get_source (marbles.py lines 189-220).
When no walked node carries the reported line number, the two names
assigned inside the loop are never bound and Python raises
UnboundLocalError at their first use. -/
def getSource (lines : List Chars) (nodes : List AstNode)
    (linenumber leading following : Int) : Except PyErr Chars :=
  match walkFind linenumber nodes none with
  | none => .error (.unboundLocal "source")
  | some none => .error (.unboundLocal "statement")
  | some (some stmtNode) =>
    match stmtNode.lineno? with
    | none => .error (.attributeError "lineno")
    | some sl => .ok (renderSource lines sl linenumber leading following)

/-- A format template: the parsed form of a Python str.format string,
literal runs alternating with named replacement fields. -/
inductive FPart where
  | lit (s : String)
  | field (name : String)

/-- A message or advice template. -/
abbrev Tmpl := List FPart

/-- Substitute a template against a name-to-text mapping; a field whose
name is absent raises KeyError, as str.format does. -/
def renderTmpl : Tmpl → List (String × String) → Except PyErr String
  | [], _ => .ok ""
  | .lit s :: rest, m => (renderTmpl rest m).map (fun t => s ++ t)
  | .field k :: rest, m =>
    match m.lookup k with
    | none => .error (.keyError k)
    | some v => (renderTmpl rest m).map (fun t => v ++ t)

/-- template.format(**locals): unpacking None where a mapping is
required raises TypeError before any field is looked at. -/
def pyFormat (t : Tmpl) (locals? : Option (List (String × String))) : Except PyErr String :=
  match locals? with
  | none => .error (.typeError "format() argument after ** must be a mapping, not NoneType")
  | some m => renderTmpl t m

/-- str.startswith on whole strings. -/
def pyStartsWith (s pre : String) : Bool := pre.data.isPrefixOf s.data

/-- Whitespace for word splitting in the textwrap model. -/
def isPyWs (c : Char) : Bool := c = ' ' || c = '\t' || c = '\n' || c = '\r'

/-- Split into whitespace-separated words, dropping empty pieces. -/
def pySplitWs (l : Chars) : List Chars :=
  let step := fun c (acc : List Chars × Chars) =>
    if isPyWs c then (if acc.2 = [] then acc.1 else acc.2 :: acc.1, [])
    else (acc.1, c :: acc.2)
  let r := l.foldr step ([], [])
  if r.2 = [] then r.1 else r.2 :: r.1

/-- Greedy line filling at a column width, a simplified but faithful
model of the stdlib textwrap.wrap greedy algorithm the source calls
(the claims under proof do not depend on its word-breaking details
beyond determinism and the empty text wrapping to no lines). -/
def wrapFill (words : List Chars) (width : Nat) : List Chars :=
  let step := fun (acc : List Chars × Chars) (w : Chars) =>
    if acc.2 = [] then (acc.1, w)
    else if acc.2.length + 1 + w.length ≤ width then (acc.1, acc.2 ++ ' ' :: w)
    else (acc.1 ++ [acc.2], w)
  let r := words.foldl step ([], [])
  if r.2 = [] then r.1 else r.1 ++ [r.2]

/-- textwrap.wrap model over strings. -/
def wrapText (s : String) (width : Nat) : List String :=
  (wrapFill (pySplitWs s.data) width).map String.mk

/-- sep.join(pieces). -/
def pyJoin (sep : String) : List String → String
  | [] => ""
  | [x] => x
  | x :: xs => x ++ sep ++ pyJoin sep xs

/-- One frame of the summarized call stack: the function name, file
path, current line, and a reference into the heap of locals dicts (the
captured locals are a dict of rendered values; the reference models
Python object identity so that the .copy() in _get_stack is visible). -/
structure Frame where
  name : String
  filename : String
  lineno : Int
  localsRef : Nat

/-- The live environment an AnnotatedAssertionError inspects: the call
stack from the failure point outward, the heap holding each frame's
locals dict, and the linecache lines and ast.walk node order of the
captured source file. -/
structure Env where
  stack : List Frame
  heap : List (List (String × String))
  fileLines : List Chars
  fileNodes : List AstNode

/-- Heap lookup for a locals reference. -/
def heapGet (env : Env) (r : Nat) : List (String × String) := env.heap.getD r []

/-- The mutable attributes of an AnnotatedAssertionError.  Python
rebinds annotation['message'] and annotation['advice'] in place after
template expansion; the two rebound entries are modelled by the
fmtMessage? and fmtAdvice? fields. -/
structure AErrState where
  annot : List (String × Tmpl)
  msg : String
  locals? : Option (List (String × String))
  filename? : Option String
  linenumber? : Option Int
  assertExpr? : Option String
  formattedMsg? : Option String
  fmtMessage? : Option String
  fmtAdvice? : Option String

/-- The state right after the field assignments at the top of
AnnotatedAssertionError.__init__ (marbles.py lines 94-99). -/
def initState (annot : List (String × Tmpl)) (msg : String) : AErrState :=
  ⟨annot, msg, none, none, none, none, none, none, none⟩

/-- AnnotatedAssertionError._get_stack (marbles.py lines 145-163):
walk the stack outward, stop at the first frame whose function name
starts with the test prefix, and store a copy of its locals together
with its filename and line number.  No matching frame leaves all three
attributes as they were. -/
def getStack (st : AErrState) (env : Env) : AErrState :=
  match env.stack.find? (fun f => pyStartsWith f.name "test_") with
  | some f => { st with locals? := some (heapGet env f.localsRef),
                        filename? := some f.filename,
                        linenumber? := some f.lineno }
  | none => st

/-- The locals property (marbles.py lines 113-117): refetch when the
attribute is falsy (None or an empty dict), then return it. -/
def localsProp (st : AErrState) (env : Env) : Option (List (String × String)) × AErrState :=
  let st1 := match st.locals? with
    | some l => if l = [] then getStack st env else st
    | none => getStack st env
  (st1.locals?, st1)

/-- The filename property (marbles.py lines 119-123); falsy means None
or the empty string. -/
def filenameProp (st : AErrState) (env : Env) : Option String × AErrState :=
  let st1 := match st.filename? with
    | some f => if f = "" then getStack st env else st
    | none => getStack st env
  (st1.filename?, st1)

/-- The linenumber property (marbles.py lines 125-129); falsy means
None or zero. -/
def linenumberProp (st : AErrState) (env : Env) : Option Int × AErrState :=
  let st1 := match st.linenumber? with
    | some n => if n = 0 then getStack st env else st
    | none => getStack st env
  (st1.linenumber?, st1)

/-- The computation behind the assert_expr property (marbles.py lines
131-136): _get_source(self.filename, self.linenumber), memoized.  With
filename None, linecache yields no lines and parsing the empty text
walks only a bare Module node; with linenumber None no node ever
matches; both end in the UnboundLocalError of _get_source. -/
def assertExprCompute (st : AErrState) (env : Env) : Except PyErr (String × AErrState) :=
  let p1 := filenameProp st env
  let p2 := linenumberProp p1.2 env
  let lines := match p1.1 with
    | some _ => env.fileLines
    | none => []
  let nodes := match p1.1 with
    | some _ => env.fileNodes
    | none => [⟨false, none⟩]
  match p2.1 with
  | none => .error (.unboundLocal "source")
  | some ln =>
    match getSource lines nodes ln 1 2 with
    | .error e => .error e
    | .ok out => .ok (String.mk out, { p2.2 with assertExpr? := some (String.mk out) })

/-- The assert_expr property with its falsy-memoization check. -/
def assertExprProp (st : AErrState) (env : Env) : Except PyErr (String × AErrState) :=
  match st.assertExpr? with
  | some s => if s = "" then assertExprCompute st env else .ok (s, st)
  | none => assertExprCompute st env

/-- AnnotatedAssertionError._format_annotation (marbles.py lines
165-175): expand the message and advice templates against the locals
property, word-wrap them at 74 and 64 columns, and store the results
back into the annotation. -/
def formatAnnot (st : AErrState) (env : Env) : Except PyErr AErrState :=
  match st.annot.lookup "message" with
  | none => .error (.keyError "message")
  | some mT =>
    let p1 := localsProp st env
    match pyFormat mT p1.1 with
    | .error e => .error e
    | .ok fm =>
      match p1.2.annot.lookup "advice" with
      | none => .error (.keyError "advice")
      | some aT =>
        let p2 := localsProp p1.2 env
        match pyFormat aT p2.1 with
        | .error e => .error e
        | .ok fa =>
          .ok { p2.2 with fmtMessage? := some (pyJoin "\n" (wrapText fm 74)),
                          fmtAdvice? := some (pyJoin "\n\t" (wrapText fa 64)) }

/-- The display filter of _format_locals (marbles.py lines 177-179):
drop the reserved names and every underscore-prefixed name. -/
def formatLocalsPairs (m : List (String × String)) : List (String × String) :=
  m.filter (fun kv => !IGNORE_LOCALS.contains kv.1 && !pyStartsWith kv.1 "_")

/-- AnnotatedAssertionError._format_locals (marbles.py lines 177-181):
the filtered pairs rendered k=v and joined; iterating a None locals
attribute would raise AttributeError. -/
def formatLocalsFn (st : AErrState) (env : Env) : Except PyErr (String × AErrState) :=
  let p := localsProp st env
  match p.1 with
  | none => .error (.attributeError "NoneType object has no attribute items")
  | some m =>
    .ok (pyJoin "\n\t" ((formatLocalsPairs m).map (fun kv => kv.1 ++ "=" ++ kv.2)), p.2)

/-- The _META_FORMAT_STRING template of marbles.py lines 46-55 applied
to its five pieces. -/
def metaFormat (standardMsg message assertExpr locs advice : String) : String :=
  standardMsg ++ "\n" ++ message ++ "\n\nSource:\n" ++ assertExpr ++
    "\nLocals:\n\t" ++ locs ++ "\nAdvice:\n\t" ++ advice ++ "\n    "

/-- AnnotatedAssertionError._format_msg (marbles.py lines 183-187); the
keyword arguments are evaluated in source order, so an error raised
while computing the source excerpt propagates before locals are
rendered. -/
def formatMsgFn (st : AErrState) (env : Env) : Except PyErr (String × AErrState) :=
  match st.fmtMessage? with
  | none => .error (.keyError "message")
  | some message =>
    match assertExprProp st env with
    | .error e => .error e
    | .ok p1 =>
      match p1.2.fmtAdvice? with
      | none => .error (.keyError "advice")
      | some advice =>
        match formatLocalsFn p1.2 env with
        | .error e => .error e
        | .ok p2 => .ok (metaFormat p2.2.msg message p1.1 p2.1 advice, p2.2)

/-- The computing branch of the formattedMsg property, storing the
rendered text. -/
def formattedMsgCompute (st : AErrState) (env : Env) : Except PyErr (String × AErrState) :=
  match formatMsgFn st env with
  | .error e => .error e
  | .ok p => .ok (p.1, { p.2 with formattedMsg? := some p.1 })

/-- The formattedMsg property (marbles.py lines 138-143): memoized
behind a falsy check (None or the empty string recompute). -/
def formattedMsgProp (st : AErrState) (env : Env) : Except PyErr (String × AErrState) :=
  match st.formattedMsg? with
  | some s => if s = "" then formattedMsgCompute st env else .ok (s, st)
  | none => formattedMsgCompute st env

/-- AnnotatedAssertionError.__init__ (marbles.py lines 65-103): store
the annotation and standard message, format the annotation, then force
the formattedMsg property for the superclass constructor. -/
def mkAErr (annot : List (String × Tmpl)) (msg : String) (env : Env) :
    Except PyErr AErrState :=
  match formatAnnot (initState annot msg) env with
  | .error e => .error e
  | .ok st1 =>
    match formattedMsgProp st1 env with
    | .error e => .error e
    | .ok p => .ok p.2

/-- Frames below the test frame in the C6 witness stack. -/
def c6Pre : List Frame := [⟨"setUp", "fixtures.py", 11, 0⟩]

/-- The first test frame of the C6 witness stack. -/
def c6Frame : Frame := ⟨"test_sample", "test_sample.py", 7, 1⟩

/-- Frames beyond the first test frame in the C6 witness stack (one of
them also matches the test prefix and must be ignored). -/
def c6Post : List Frame := [⟨"test_other", "test_sample.py", 21, 2⟩]

/-- The environment of the C6 witness. -/
def c6Env : Env :=
  ⟨c6Pre ++ c6Frame :: c6Post,
   [[("a", "1")], [("x", "5"), ("self", "obj")], [("y", "7")]], [], []⟩

/-- A stack with no frame named by the test-method convention. -/
def c7Env : Env := ⟨[⟨"setUp", "fixtures.py", 3, 0⟩], [[("a", "1")]], [], []⟩

/-- An annotation whose message template references a variable. -/
def c7Ann : List (String × Tmpl) :=
  [("message", [.field "x"]), ("advice", [.lit "do a thing"])]

/-- An annotation whose templates reference no variable at all. -/
def c7LitAnn : List (String × Tmpl) :=
  [("message", [.lit "plain"]), ("advice", [.lit "do a thing"])]

/-- The C2 environment: the captured test frame reports line 2 of a
one-line file, so no walked node carries the reported line number. -/
def c2Env : Env :=
  ⟨[⟨"test_sample", "test_sample.py", 2, 0⟩], [[("x", "5"), ("self", "obj")]],
   ["x = 1".data], [⟨false, none⟩, ⟨true, some 1⟩]⟩

/-- A plain annotation for the C2 failing input. -/
def c2Ann : List (String × Tmpl) := [("message", [.lit "m"]), ("advice", [.lit "a"])]

/-- The C9 witness environment: a test frame on line 1 of a one-line
file whose statement node carries line 1. -/
def c9Env : Env :=
  ⟨[⟨"test_sample", "test_sample.py", 1, 0⟩], [[("x", "5"), ("self", "obj")]],
   ["assert thing".data], [⟨false, none⟩, ⟨true, some 1⟩]⟩

/-- The C9 witness annotation. -/
def c9Ann : List (String × Tmpl) :=
  [("message", [.lit "m ", .field "x"]), ("advice", [.lit "a"])]

/-- The state a successful C9 witness construction produces. -/
def c9St : AErrState :=
  match mkAErr c9Ann "std" c9Env with
  | .ok st => st
  | .error _ => initState c9Ann "std"

/-- Captured locals used by the C8 witness. -/
def c8M : List (String × String) := [("self", "obj"), ("x", "5")]

/-- Substring occurrence check over character lists, used to state that
an excerpt does or does not include a given file line. -/
def containsSub : Chars → Chars → Bool
  | [], sub => sub.isEmpty
  | c :: cs, sub => sub.isPrefixOf (c :: cs) || containsSub cs sub

/-- Extract the excerpt of a successful _get_source call. -/
def okChars : Except PyErr Chars → Chars
  | .ok o => o
  | .error _ => []

/-- A sixteen-line Python file satisfying the C1 premise: lines 1-9 are
the assignments a = 1 through i = 9, lines 10-13 are the single
statement j = foo( / 11, / 12, / 13) spanning lines 10 through 13, and
lines 14-16 are the assignments k = 14, m = 15, n = 16. -/
def cxFile : List Chars :=
  (["a = 1", "b = 2", "c = 3", "d = 4", "e = 5", "f = 6", "g = 7", "h = 8",
    "i = 9", "j = foo(", "    11,", "    12,", "    13)", "k = 14", "m = 15",
    "n = 16"] : List String).map String.data

/-- ast.walk of cxFile, breadth first: the Module; the thirteen
top-level statements (lines 1-9, 10, 14, 15, 16); then each statement's
target Name and value side by side (a Constant on the value side, or
for line 10 the Call at line 10); then the Store contexts of the first
ten Names (expression contexts carry no line number), the callee Name
foo at line 10 and the three argument Constants at lines 11, 12, 13,
the Store contexts of the last three Names; finally the Load context of
foo.  Every statement of the file is visited before the first node
carrying line 13, so the tracked statement at the break is the line-16
assignment, not the spanning statement. -/
def cxNodes : List AstNode :=
  [⟨false, none⟩,
   ⟨true, some 1⟩, ⟨true, some 2⟩, ⟨true, some 3⟩, ⟨true, some 4⟩,
   ⟨true, some 5⟩, ⟨true, some 6⟩, ⟨true, some 7⟩, ⟨true, some 8⟩,
   ⟨true, some 9⟩, ⟨true, some 10⟩, ⟨true, some 14⟩, ⟨true, some 15⟩,
   ⟨true, some 16⟩,
   ⟨false, some 1⟩, ⟨false, some 1⟩, ⟨false, some 2⟩, ⟨false, some 2⟩,
   ⟨false, some 3⟩, ⟨false, some 3⟩, ⟨false, some 4⟩, ⟨false, some 4⟩,
   ⟨false, some 5⟩, ⟨false, some 5⟩, ⟨false, some 6⟩, ⟨false, some 6⟩,
   ⟨false, some 7⟩, ⟨false, some 7⟩, ⟨false, some 8⟩, ⟨false, some 8⟩,
   ⟨false, some 9⟩, ⟨false, some 9⟩, ⟨false, some 10⟩, ⟨false, some 10⟩,
   ⟨false, some 14⟩, ⟨false, some 14⟩, ⟨false, some 15⟩, ⟨false, some 15⟩,
   ⟨false, some 16⟩, ⟨false, some 16⟩,
   ⟨false, none⟩, ⟨false, none⟩, ⟨false, none⟩, ⟨false, none⟩, ⟨false, none⟩,
   ⟨false, none⟩, ⟨false, none⟩, ⟨false, none⟩, ⟨false, none⟩, ⟨false, none⟩,
   ⟨false, some 10⟩, ⟨false, some 11⟩, ⟨false, some 12⟩, ⟨false, some 13⟩,
   ⟨false, none⟩, ⟨false, none⟩, ⟨false, none⟩,
   ⟨false, none⟩]

/-- A fifteen-line Python file, as cxFile up to line 13 but with the
spanning statement last: lines 14 and 15 are the comments # k and # m,
which produce no AST nodes. -/
def wtFile : List Chars :=
  (["a = 1", "b = 2", "c = 3", "d = 4", "e = 5", "f = 6", "g = 7", "h = 8",
    "i = 9", "j = foo(", "    11,", "    12,", "    13)", "# k", "# m"] :
    List String).map String.data

/-- ast.walk of wtFile, breadth first: the Module; the ten statements
of lines 1-10; the target Name and value of each; the ten Store
contexts (no line number); the callee Name foo and the argument
Constants at lines 11, 12, 13; the Load context of foo.  No statement
follows the spanning one, so the tracked statement when the walk first
meets the line-13 node is the line-10 statement itself. -/
def wtNodes : List AstNode :=
  [⟨false, none⟩,
   ⟨true, some 1⟩, ⟨true, some 2⟩, ⟨true, some 3⟩, ⟨true, some 4⟩,
   ⟨true, some 5⟩, ⟨true, some 6⟩, ⟨true, some 7⟩, ⟨true, some 8⟩,
   ⟨true, some 9⟩, ⟨true, some 10⟩,
   ⟨false, some 1⟩, ⟨false, some 1⟩, ⟨false, some 2⟩, ⟨false, some 2⟩,
   ⟨false, some 3⟩, ⟨false, some 3⟩, ⟨false, some 4⟩, ⟨false, some 4⟩,
   ⟨false, some 5⟩, ⟨false, some 5⟩, ⟨false, some 6⟩, ⟨false, some 6⟩,
   ⟨false, some 7⟩, ⟨false, some 7⟩, ⟨false, some 8⟩, ⟨false, some 8⟩,
   ⟨false, some 9⟩, ⟨false, some 9⟩, ⟨false, some 10⟩, ⟨false, some 10⟩,
   ⟨false, none⟩, ⟨false, none⟩, ⟨false, none⟩, ⟨false, none⟩, ⟨false, none⟩,
   ⟨false, none⟩, ⟨false, none⟩, ⟨false, none⟩, ⟨false, none⟩, ⟨false, none⟩,
   ⟨false, some 10⟩, ⟨false, some 11⟩, ⟨false, some 12⟩, ⟨false, some 13⟩,
   ⟨false, none⟩]

end Marbles

namespace Marbles

/-- Claim C5: a two-element sequence (m, a) is coerced to the mapping
with message m and advice a; a mapping is returned as-is; any value
that is neither a sequence nor a mapping raises an error naming the
offending type. -/
theorem C5_coerce_cases :
    (∀ m a : PyVal, coerceAnnotationDict (.tup [m, a]) =
      .ok [("message", m), ("advice", a)]) ∧
    (∀ entries, coerceAnnotationDict (.dict entries) = .ok entries) ∧
    (∀ v, isPySeq v = false → isPyMap v = false →
      coerceAnnotationDict v = .error (.annotationTypeNotSupported (pyTypeName v))) := by
  refine ⟨fun m a => rfl, fun entries => rfl, fun v h1 h2 => ?_⟩
  cases v with
  | str s => simp [isPySeq] at h1
  | tup xs => simp [isPySeq] at h1
  | dict m => simp [isPyMap] at h2
  | other t => rfl

/-- Claim C5 witness: the third branch applied at a value of a type
that is neither a sequence nor a mapping. -/
theorem C5_coerce_cases_witness :
    coerceAnnotationDict (.other "int") = .error (.annotationTypeNotSupported "int") :=
  C5_coerce_cases.2.2 (PyVal.other "int") rfl rfl

/-- Claim C10: a string of length at least two is accepted as a
sequence by _coerce_annotation_dict and zipped character by character
against the required keys, so it is silently reduced to a mapping of
its first two one-character strings. -/
theorem C10_string_annotation (a b : Char) (rest : List Char) :
    coerceAnnotationDict (.str (String.mk (a :: b :: rest))) =
      .ok [("message", .str (String.mk [a])), ("advice", .str (String.mk [b]))] := rfl

/-- A Python mapping passes through _coerce_annotation_dict unchanged. -/
theorem coerce_dict (m : List (String × PyVal)) :
    coerceAnnotationDict (.dict m) = .ok m := rfl

/-- Claim C3 counterexample: a mapping holding both required keys plus
an extra key has a non-empty symmetric difference with REQUIRED_KEYS,
yet _validate_annotation does not raise, because the source computes
the one-sided difference required minus keys. -/
theorem C3_counterexample :
    validateAnnot c3Ann = .ok () ∧
      symmDiff REQUIRED_KEYS (c3Ann.map Prod.fst) ≠ [] := by
  exact ⟨rfl, by decide⟩

/-- Claim C3 (amended): _validate_annotation succeeds exactly when every
required key is among the mapping keys (extra keys never raise); when it
raises, the error names exactly the keys of the one-sided difference
required minus keys, all in one error; and every call the wrapper
forwards to the underlying assertion carries a validated annotation, so
the assertion is never invoked when validation raises. -/
theorem C3_validation (m : List (String × PyVal)) :
    (validateAnnot m = .ok () ↔
      ∀ k ∈ REQUIRED_KEYS, (m.map Prod.fst).contains k = true) ∧
    (∀ missing, validateAnnot m = .error (.annotationMissingFields missing) →
      ∀ k, k ∈ missing ↔ k ∈ REQUIRED_KEYS ∧ (m.map Prod.fst).contains k = false) ∧
    (∀ args kwargs cs, wrapperCall args kwargs = .ok cs →
      validateAnnot cs.msgAnnot = .ok ()) := by
  refine ⟨?_, ?_, ?_⟩
  · simp only [validateAnnot]
    split
    · rename_i hnil
      simp only [List.filter_eq_nil_iff] at hnil
      constructor
      · intro _ k hk
        have := hnil k hk
        simpa using this
      · intro _; rfl
    · rename_i hne
      constructor
      · intro h; exact absurd h (by simp)
      · intro h
        exfalso
        apply hne
        simp only [List.filter_eq_nil_iff]
        intro k hk
        have := h k hk
        simp only [this]
        decide
  · intro missing h k
    simp only [validateAnnot] at h
    split at h
    · exact absurd h (by simp)
    · injection h with h
      injection h with h
      subst h
      simp [List.mem_filter]
  · intro args kwargs cs h
    simp only [wrapperCall] at h
    split at h
    · split at h
      · exact absurd h (by simp)
      · rename_i annot heq
        rw [coerce_dict] at heq
        injection heq with heq
        subst heq
        split at h
        · exact absurd h (by simp)
        · rename_i u hv
          injection h with h
          subst h
          exact hv
    · split at h
      · split at h
        · exact absurd h (by simp)
        · rename_i annot heq
          split at h
          · exact absurd h (by simp)
          · rename_i u hv
            injection h with h
            subst h
            exact hv
      · split at h
        · exact absurd h (by simp)
        · split at h
          · exact absurd h (by simp)
          · rename_i annot heq
            split at h
            · exact absurd h (by simp)
            · rename_i u hv
              injection h with h
              subst h
              exact hv

/-- Claim C3 witness: the forwarded-call conjunct applied at a concrete
intercepted call whose annotation passed validation. -/
theorem C3_validation_witness :
    validateAnnot c3WitnessCS.msgAnnot = .ok () :=
  (C3_validation []).2.2 c3WitnessArgs c3WitnessKwargs c3WitnessCS rfl

/-- Claim C4: whenever a message= or advice= keyword appears among an
intercepted call's keyword arguments, the annotation forwarded through
the msg channel is the bundle built from those keyword arguments, and
the positional arguments (including any trailing positional annotation)
are forwarded untouched; the keyword form therefore wins, and by purity
this precedence is the same on every such call. -/
theorem C4_keyword_precedence (args : List PyVal) (kwargs : List (String × PyVal))
    (cs : CallSpec)
    (hprov : kwargs.any (fun kv => REQUIRED_KEYS.contains kv.1) = true)
    (hok : wrapperCall args kwargs = .ok cs) :
    cs.msgAnnot = kwargs.filter (fun kv => REQUIRED_KEYS.contains kv.1) ∧
      cs.args = args := by
  simp only [wrapperCall] at hok
  rw [if_pos hprov] at hok
  split at hok
  · exact absurd hok (by simp)
  · rename_i annot heq
    rw [coerce_dict] at heq
    injection heq with heq
    subst heq
    split at hok
    · exact absurd hok (by simp)
    · injection hok with hok
      subst hok
      exact ⟨rfl, rfl⟩

/-- Claim C4 witness: the theorem applied at a call supplying both a
trailing positional annotation and keyword message/advice. -/
theorem C4_keyword_precedence_witness :
    c4WitnessCS.msgAnnot =
        c4WitnessKwargs.filter (fun kv => REQUIRED_KEYS.contains kv.1) ∧
      c4WitnessCS.args = c4WitnessArgs :=
  C4_keyword_precedence c4WitnessArgs c4WitnessKwargs c4WitnessCS rfl rfl

/-- find? returns the first element satisfying the check, skipping any
earlier elements that fail it. -/
theorem find_skips_failing {p : Frame → Bool} (pre : List Frame) (f : Frame)
    (post : List Frame) (hpre : ∀ g ∈ pre, p g = false) (hf : p f = true) :
    (pre ++ f :: post).find? p = some f := by
  induction pre with
  | nil => simp [List.find?, hf]
  | cons g gs ih =>
    have hg := hpre g (List.mem_cons_self g gs)
    simp only [List.cons_append, List.find?, hg]
    exact ih (fun x hx => hpre x (List.mem_cons_of_mem g hx))

/-- Claim C6: with at least one frame matching the test prefix,
_get_stack captures the locals, filename, and line number of the first
such frame walking outward (later matching frames are ignored), and
because the snapshot is a copy held by the failure object, a second
access under any later environment (mutated frame locals, unwound
stack) still returns the captured snapshot. -/
theorem C6_first_test_frame (ann : List (String × Tmpl)) (msg : String) (env : Env)
    (pre : List Frame) (f : Frame) (post : List Frame)
    (hstack : env.stack = pre ++ f :: post)
    (hpre : ∀ g ∈ pre, pyStartsWith g.name "test_" = false)
    (hf : pyStartsWith f.name "test_" = true)
    (hcap : heapGet env f.localsRef ≠ []) :
    (localsProp (initState ann msg) env).1 = some (heapGet env f.localsRef) ∧
    ((localsProp (initState ann msg) env).2).filename? = some f.filename ∧
    ((localsProp (initState ann msg) env).2).linenumber? = some f.lineno ∧
    ∀ env2, localsProp (localsProp (initState ann msg) env).2 env2 =
      (some (heapGet env f.localsRef), (localsProp (initState ann msg) env).2) := by
  have hfind : env.stack.find? (fun fr => pyStartsWith fr.name "test_") = some f := by
    rw [hstack]
    exact find_skips_failing pre f post hpre hf
  have hcapture : localsProp (initState ann msg) env =
      (some (heapGet env f.localsRef),
       { initState ann msg with locals? := some (heapGet env f.localsRef),
                                filename? := some f.filename,
                                linenumber? := some f.lineno }) := by
    simp [localsProp, initState, getStack, hfind]
  refine ⟨by rw [hcapture], by rw [hcapture], by rw [hcapture], ?_⟩
  intro env2
  rw [hcapture]
  simp only [localsProp]
  rw [if_neg hcap]

/-- Claim C6 witness: the theorem applied at a concrete stack whose
first matching frame is preceded by a non-test frame and followed by
another matching frame. -/
theorem C6_first_test_frame_witness :
    (localsProp (initState [] "std") c6Env).1 = some (heapGet c6Env c6Frame.localsRef) ∧
    ((localsProp (initState [] "std") c6Env).2).filename? = some c6Frame.filename ∧
    ((localsProp (initState [] "std") c6Env).2).linenumber? = some c6Frame.lineno ∧
    ∀ env2, localsProp (localsProp (initState [] "std") c6Env).2 env2 =
      (some (heapGet c6Env c6Frame.localsRef), (localsProp (initState [] "std") c6Env).2) :=
  C6_first_test_frame [] "std" c6Env c6Pre c6Frame c6Post rfl (by decide) (by decide)
    (by decide)

/-- Claim C7, code side: with no test-prefixed frame on the stack the
locals, filename, and linenumber attributes indeed stay unset, but the
locals property then returns None, not an empty mapping, and expanding
the templates raises TypeError from unpacking None — even when the
template references no variable at all — rather than the
template-formatting KeyError the claim describes. -/
theorem C7_none_locals_type_error :
    (localsProp (initState c7Ann "std") c7Env).1 = none ∧
    ((localsProp (initState c7Ann "std") c7Env).2).filename? = none ∧
    ((localsProp (initState c7Ann "std") c7Env).2).linenumber? = none ∧
    mkAErr c7Ann "std" c7Env =
      .error (.typeError "format() argument after ** must be a mapping, not NoneType") ∧
    mkAErr c7LitAnn "std" c7Env =
      .error (.typeError "format() argument after ** must be a mapping, not NoneType") :=
  ⟨rfl, rfl, rfl, rfl, rfl⟩

/-- Claim C2, code side: when no walked node of the captured file
carries the reported failing line, constructing the failure object does
not produce any report — the UnboundLocalError escaping _get_source
propagates through _format_msg and __init__, masking the assertion
failure. -/
theorem C2_reconstruction_masks_failure :
    mkAErr c2Ann "1 != 2" c2Env = .error (.unboundLocal "source") := rfl

/-- Claim C8: a captured local whose name is reserved or starts with an
underscore is never among the names the Locals section displays, while
interpolating any captured name (the excluded ones included) against
the full locals snapshot still succeeds with its value. -/
theorem C8_reserved_locals (m : List (String × String)) (k v : String)
    (hlook : m.lookup k = some v) :
    ((k ∈ IGNORE_LOCALS ∨ pyStartsWith k "_" = true) →
      k ∉ (formatLocalsPairs m).map Prod.fst) ∧
    pyFormat [FPart.field k] (some m) = .ok v := by
  constructor
  · intro hexcl hmem
    simp only [List.mem_map] at hmem
    obtain ⟨kv, hkv, hk⟩ := hmem
    simp only [formatLocalsPairs, List.mem_filter] at hkv
    obtain ⟨hkvm, hpred⟩ := hkv
    rw [Bool.and_eq_true] at hpred
    obtain ⟨hp1, hp2⟩ := hpred
    subst hk
    cases hexcl with
    | inl h =>
      have hc : IGNORE_LOCALS.contains kv.1 = true := List.elem_eq_true_of_mem h
      rw [hc] at hp1
      exact absurd hp1 (by decide)
    | inr h =>
      rw [h] at hp2
      exact absurd hp2 (by decide)
  · simp only [pyFormat, renderTmpl, hlook, Except.map]
    simp

/-- Claim C8 witness: the theorem applied at a snapshot binding the
reserved name self. -/
theorem C8_reserved_locals_witness :
    (("self" ∈ IGNORE_LOCALS ∨ pyStartsWith "self" "_" = true) →
      "self" ∉ (formatLocalsPairs c8M).map Prod.fst) ∧
    pyFormat [FPart.field "self"] (some c8M) = .ok "obj" :=
  C8_reserved_locals c8M "self" "obj" rfl

/-- The rendered meta format string is never empty: it always carries
its literal section headers. -/
theorem metaFormat_ne_empty (a b c d e : String) : metaFormat a b c d e ≠ "" := by
  intro h
  have h2 : (metaFormat a b c d e).data = [] := congrArg String.data h
  have h3 : ∀ x y : String, (x ++ y).data = x.data ++ y.data := fun x y => rfl
  rw [metaFormat, h3] at h2
  rcases List.append_eq_nil.mp h2 with ⟨h4, h5⟩
  exact absurd h5 (by decide)

/-- A successful _format_msg always returns a meta-formatted string. -/
theorem formatMsgFn_ok_shape (st : AErrState) (env : Env) (p : String × AErrState)
    (h : formatMsgFn st env = .ok p) : ∃ a b c d e, p.1 = metaFormat a b c d e := by
  unfold formatMsgFn at h
  split at h
  · exact absurd h (by simp)
  · split at h
    · exact absurd h (by simp)
    · split at h
      · exact absurd h (by simp)
      · split at h
        · exact absurd h (by simp)
        · injection h with h
          exact ⟨_, _, _, _, _, congrArg Prod.fst h.symm⟩

/-- A successful formattedMsg access leaves the rendered text stored
and non-empty. -/
theorem formattedMsgProp_ok (st : AErrState) (env : Env) (p : String × AErrState)
    (h : formattedMsgProp st env = .ok p) :
    p.2.formattedMsg? = some p.1 ∧ p.1 ≠ "" := by
  have hcompute : ∀ q, formattedMsgCompute st env = .ok q →
      q.2.formattedMsg? = some q.1 ∧ q.1 ≠ "" := by
    intro q hq
    unfold formattedMsgCompute at hq
    split at hq
    · exact absurd hq (by simp)
    · rename_i r hr
      obtain ⟨a, b, c, d, e, hmeta⟩ := formatMsgFn_ok_shape st env r hr
      injection hq with hq
      subst hq
      exact ⟨rfl, by rw [hmeta]; exact metaFormat_ne_empty a b c d e⟩
  unfold formattedMsgProp at h
  split at h
  · rename_i s hsome
    split at h
    · exact hcompute p h
    · rename_i hne
      injection h with h
      subst h
      exact ⟨hsome, hne⟩
  · exact hcompute p h

/-- Claim C9: once an AnnotatedAssertionError is constructed, the
rendered report is stored on the object, and every later access of the
formattedMsg property — under any environment, including one whose
stack has unwound — returns exactly the stored text without
recomputation. -/
theorem C9_memoized_report (ann : List (String × Tmpl)) (msg : String) (env : Env)
    (st : AErrState) (hok : mkAErr ann msg env = .ok st) :
    ∃ s, st.formattedMsg? = some s ∧
      ∀ env2, formattedMsgProp st env2 = .ok (s, st) := by
  unfold mkAErr at hok
  split at hok
  · exact absurd hok (by simp)
  · rename_i st1 hfa
    split at hok
    · exact absurd hok (by simp)
    · rename_i p hfm
      injection hok with hok
      subst hok
      obtain ⟨h1, h2⟩ := formattedMsgProp_ok st1 env p hfm
      refine ⟨p.1, h1, fun env2 => ?_⟩
      unfold formattedMsgProp
      simp only [h1]
      rw [if_neg h2]

/-- Claim C9 witness: the theorem applied at a concrete construction;
the stack of the second access is empty (fully unwound). -/
theorem C9_memoized_report_witness :
    ∃ s, c9St.formattedMsg? = some s ∧
      ∀ env2, formattedMsgProp c9St env2 = .ok (s, c9St) :=
  C9_memoized_report c9Ann "std" c9Env c9St rfl

/-- splitNl never returns the empty list. -/
theorem splitNl_ne_nil (l : Chars) : splitNl l ≠ [] := by
  induction l with
  | nil => simp [splitNl]
  | cons c cs ih =>
    simp only [splitNl]
    split
    · simp
    · split <;> simp

/-- Splitting a newline-free text gives one piece. -/
theorem splitNl_no_nl (l : Chars) (h : '\n' ∉ l) : splitNl l = [l] := by
  induction l with
  | nil => rfl
  | cons c cs ih =>
    have hc : c ≠ '\n' := by
      intro hh
      exact h (hh ▸ List.mem_cons_self c cs)
    have hcs : '\n' ∉ cs := fun hh => h (List.mem_cons_of_mem c hh)
    simp only [splitNl, ih hcs]
    rw [if_neg hc]

/-- Splitting peels a leading newline-free piece at its newline. -/
theorem splitNl_append (l r : Chars) (h : '\n' ∉ l) :
    splitNl (l ++ '\n' :: r) = l :: splitNl r := by
  induction l with
  | nil =>
    simp only [List.nil_append, splitNl]
    cases hr : splitNl r with
    | nil => exact absurd hr (splitNl_ne_nil r)
    | cons a as => simp
  | cons c cs ih =>
    have hc : c ≠ '\n' := by
      intro hh
      exact h (hh ▸ List.mem_cons_self c cs)
    have hcs : '\n' ∉ cs := fun hh => h (List.mem_cons_of_mem c hh)
    have step : splitNl ((c :: cs) ++ '\n' :: r) =
        (match splitNl (cs ++ '\n' :: r) with
        | [] => [[]]
        | r1 :: rs => if c = '\n' then [] :: r1 :: rs else (c :: r1) :: rs) := rfl
    rw [step, ih hcs]
    show (if c = '\n' then [] :: cs :: splitNl r else (c :: cs) :: splitNl r) =
      (c :: cs) :: splitNl r
    rw [if_neg hc]

/-- splitNl recovers the rows joined by joinNl when the rows are
newline-free. -/
theorem splitNl_joinNl (ls : List Chars) (hne : ls ≠ [])
    (h : ∀ x ∈ ls, '\n' ∉ x) : splitNl (joinNl ls) = ls := by
  induction ls with
  | nil => exact absurd rfl hne
  | cons a as ih =>
    cases as with
    | nil => exact splitNl_no_nl a (h a (List.mem_cons_self a []))
    | cons b bs =>
      have ha : '\n' ∉ a := h a (List.mem_cons_self a (b :: bs))
      have hjoin : joinNl (a :: b :: bs) = a ++ '\n' :: joinNl (b :: bs) := rfl
      rw [hjoin, splitNl_append a (joinNl (b :: bs)) ha,
          ih (by simp) (fun x hx => h x (List.mem_cons_of_mem a hx))]

/-- dedentLines keeps the number of lines. -/
theorem dedentLines_length (ls : List Chars) : (dedentLines ls).length = ls.length := by
  simp only [dedentLines]
  split
  · split <;> simp
  · simp

/-- getD through a map by a function that only shortens from the left. -/
theorem getD_map_sfx (f : Chars → Chars) (hf : ∀ x, f x <:+ x) (l : List Chars) :
    ∀ k : Nat, (l.map f).getD k [] <:+ l.getD k [] := by
  induction l with
  | nil => intro k; exact List.suffix_refl []
  | cons a as ih =>
    intro k
    cases k with
    | zero => simpa using hf a
    | succ n => simpa using ih n

/-- Each dedented line is a suffix of the corresponding input line. -/
theorem dedentLines_getD_sfx (ls : List Chars) (k : Nat) :
    (dedentLines ls).getD k [] <:+ ls.getD k [] := by
  have hb : ∀ x, blankWsOnly x <:+ x := by
    intro x
    unfold blankWsOnly
    split
    · exact List.nil_suffix
    · exact List.suffix_refl x
  simp only [dedentLines]
  split
  · rename_i m hm
    split
    · rw [List.map_map]
      refine getD_map_sfx _ ?_ ls k
      intro x
      simp only [Function.comp_apply]
      refine List.IsSuffix.trans ?_ (hb x)
      split
      · exact List.drop_suffix _ _
      · exact List.suffix_refl _
    · exact getD_map_sfx _ hb ls k
  · exact getD_map_sfx _ hb ls k

/-- Destructure a list of length seven into its elements. -/
theorem exists_seven (l : List Chars) (h : l.length = 7) :
    ∃ e0 e1 e2 e3 e4 e5 e6, l = [e0, e1, e2, e3, e4, e5, e6] := by
  rcases l with _ | ⟨e0, _ | ⟨e1, _ | ⟨e2, _ | ⟨e3, _ | ⟨e4, _ | ⟨e5, _ | ⟨e6, _ | ⟨e7, t⟩⟩⟩⟩⟩⟩⟩⟩
  all_goals first
  | exact ⟨_, _, _, _, _, _, _, rfl⟩
  | simp at h

/-- A rendered excerpt row holds no newline when its text part holds
none. -/
theorem row_no_nl (mark : Chars) (i : Int) (e : Chars) (hm : '\n' ∉ mark)
    (hp : '\n' ∉ padInt4 i) (he : '\n' ∉ e) :
    '\n' ∉ mark ++ padInt4 i ++ ' ' :: e := by
  intro hmem
  simp only [List.mem_append, List.mem_cons] at hmem
  rcases hmem with (h | h) | h | h
  · exact hm h
  · exact hp h
  · exact absurd h (by decide)
  · exact he h

/-- Claim C1 counterexample: cxFile satisfies the claim's premise (its
statement j = foo( ... 13) spans lines 10 through 13, reported failing
line 13), yet because the breadth-first walk visits every statement of
the file before the first node carrying line 13, _get_source keys the
range off the tracked line-16 statement: range(15, 15) is empty and the
excerpt is the empty string, which includes none of lines 9 through 15
and carries no marker on line 10.  At wtFile, also premise-satisfying
but with the spanning statement last so the tracker does hold the
line-10 statement, the excerpt shows lines 9 (i = 9) through 14 (# k)
with the greater-than marker on the line-10 row — and line 15 (# m) is
still not included, refuting the claimed upper bound as well. -/
theorem C1_counterexample :
    getSource cxFile cxNodes 13 1 2 = .ok [] ∧
    containsSub (okChars (getSource wtFile wtNodes 13 1 2)) ("i = 9".data) = true ∧
    containsSub (okChars (getSource wtFile wtNodes 13 1 2)) ("# k".data) = true ∧
    containsSub (okChars (getSource wtFile wtNodes 13 1 2)) (" >   10 j = foo(".data) = true ∧
    containsSub (okChars (getSource wtFile wtNodes 13 1 2)) ("# m".data) = false :=
  ⟨rfl, rfl, rfl, rfl, rfl⟩

/-- Claim C1 (amended): the _get_source walk keys the excerpt off the
statement most recently visited in breadth-first order when it first
meets a node carrying the reported line, which need not be the
enclosing statement (the counterexample shows a premise-satisfying file
where it is a later statement and the excerpt comes out empty).
Whenever that tracked statement does start at line 10 for reported line
13 — as when the statement spanning lines 10-13 is the last statement
the walk sees before the match, for example the last statement of the
file — in a file of at least 15 newline-free lines, the excerpt
(leading 1, following 2) renders exactly the six file lines 9 through
14, not through 15, one row per line: row k shows the 4-column line
number 9+k, carries the greater-than marker exactly on the statement
line 10 (k = 1) and a space on every other row, and ends with the
dedented text of file line 9+k (a suffix of that line). -/
theorem C1_excerpt_rows (lines : List Chars) (nodes : List AstNode) (stmtNode : AstNode)
    (hnl : ∀ l ∈ lines, '\n' ∉ l) (hlen : 15 ≤ lines.length)
    (hw : walkFind 13 nodes none = some (some stmtNode))
    (hsl : stmtNode.lineno? = some 10) :
    ∃ out, getSource lines nodes 13 1 2 = .ok out ∧
      (splitNl out).length = 6 ∧
      ∀ k : Nat, k < 6 →
        ∃ rest, rest <:+ lines.getD (8 + k) [] ∧
          (splitNl out).getD k [] =
            (if k = 1 then [' ', '>', ' '] else [' ', ' ', ' ']) ++
              padInt4 (9 + (k : Int)) ++ ' ' :: rest := by
  have hok : getSource lines nodes 13 1 2 = .ok (renderSource lines 10 13 1 2) := by
    simp only [getSource, hw, hsl]
  have hlen15 : (15 : Int) ≤ (lines.length : Int) := by exact_mod_cast hlen
  have hget : ∀ i : Int, 1 ≤ i → i ≤ 15 →
      getline lines i = lines.getD (i - 1).toNat [] ++ ['\n'] := by
    intro i h1 h2
    unfold getline
    rw [if_pos ⟨h1, le_trans h2 hlen15⟩]
  have hno : ∀ j : Nat, j < lines.length → '\n' ∉ lines.getD j [] := by
    intro j hj
    rw [List.getD_eq_getElem lines [] hj]
    exact hnl _ (List.getElem_mem hj)
  have h8 : (8 : Nat) < lines.length := by omega
  have h9 : (9 : Nat) < lines.length := by omega
  have h10 : (10 : Nat) < lines.length := by omega
  have h11 : (11 : Nat) < lines.length := by omega
  have h12 : (12 : Nat) < lines.length := by omega
  have h13 : (13 : Nat) < lines.length := by omega
  have hsrc : (rangeInt (10 - 1) (13 + 2)).map (getline lines) =
      [lines.getD 8 [] ++ ['\n'], lines.getD 9 [] ++ ['\n'], lines.getD 10 [] ++ ['\n'],
       lines.getD 11 [] ++ ['\n'], lines.getD 12 [] ++ ['\n'],
       lines.getD 13 [] ++ ['\n']] := by
    rw [show rangeInt (10 - 1) (13 + 2) = [9, 10, 11, 12, 13, 14] from by decide]
    simp only [List.map]
    rw [hget 9 (by decide) (by decide), hget 10 (by decide) (by decide),
        hget 11 (by decide) (by decide), hget 12 (by decide) (by decide),
        hget 13 (by decide) (by decide), hget 14 (by decide) (by decide)]
    rfl
  have hsplit : splitNl ((rangeInt (10 - 1) (13 + 2)).map (getline lines)).flatten =
      [lines.getD 8 [], lines.getD 9 [], lines.getD 10 [], lines.getD 11 [],
       lines.getD 12 [], lines.getD 13 [], []] := by
    rw [hsrc]
    have hflat : ([lines.getD 8 [] ++ ['\n'], lines.getD 9 [] ++ ['\n'],
        lines.getD 10 [] ++ ['\n'], lines.getD 11 [] ++ ['\n'],
        lines.getD 12 [] ++ ['\n'], lines.getD 13 [] ++ ['\n']] : List Chars).flatten =
        lines.getD 8 [] ++ '\n' :: (lines.getD 9 [] ++ '\n' :: (lines.getD 10 [] ++ '\n' ::
          (lines.getD 11 [] ++ '\n' :: (lines.getD 12 [] ++ '\n' ::
            (lines.getD 13 [] ++ '\n' :: []))))) := by
      simp [List.append_assoc]
    rw [hflat, splitNl_append _ _ (hno 8 h8), splitNl_append _ _ (hno 9 h9),
        splitNl_append _ _ (hno 10 h10), splitNl_append _ _ (hno 11 h11),
        splitNl_append _ _ (hno 12 h12), splitNl_append _ _ (hno 13 h13)]
    rfl
  have hDlen : (dedentLines [lines.getD 8 [], lines.getD 9 [], lines.getD 10 [],
      lines.getD 11 [], lines.getD 12 [], lines.getD 13 [], []]).length = 7 := by
    rw [dedentLines_length]
    rfl
  obtain ⟨e0, e1, e2, e3, e4, e5, e6, hD⟩ := exists_seven _ hDlen
  have hsfx : ∀ k : Nat,
      (dedentLines [lines.getD 8 [], lines.getD 9 [], lines.getD 10 [],
        lines.getD 11 [], lines.getD 12 [], lines.getD 13 [], []]).getD k [] <:+
      ([lines.getD 8 [], lines.getD 9 [], lines.getD 10 [], lines.getD 11 [],
        lines.getD 12 [], lines.getD 13 [], []] : List Chars).getD k [] :=
    fun k => dedentLines_getD_sfx _ k
  have hs0 : e0 <:+ lines.getD 8 [] := by have h := hsfx 0; rw [hD] at h; simpa using h
  have hs1 : e1 <:+ lines.getD 9 [] := by have h := hsfx 1; rw [hD] at h; simpa using h
  have hs2 : e2 <:+ lines.getD 10 [] := by have h := hsfx 2; rw [hD] at h; simpa using h
  have hs3 : e3 <:+ lines.getD 11 [] := by have h := hsfx 3; rw [hD] at h; simpa using h
  have hs4 : e4 <:+ lines.getD 12 [] := by have h := hsfx 4; rw [hD] at h; simpa using h
  have hs5 : e5 <:+ lines.getD 13 [] := by have h := hsfx 5; rw [hD] at h; simpa using h
  have hne0 : '\n' ∉ e0 := fun hin => hno 8 h8 (List.IsSuffix.subset hs0 hin)
  have hne1 : '\n' ∉ e1 := fun hin => hno 9 h9 (List.IsSuffix.subset hs1 hin)
  have hne2 : '\n' ∉ e2 := fun hin => hno 10 h10 (List.IsSuffix.subset hs2 hin)
  have hne3 : '\n' ∉ e3 := fun hin => hno 11 h11 (List.IsSuffix.subset hs3 hin)
  have hne4 : '\n' ∉ e4 := fun hin => hno 12 h12 (List.IsSuffix.subset hs4 hin)
  have hne5 : '\n' ∉ e5 := fun hin => hno 13 h13 (List.IsSuffix.subset hs5 hin)
  have hrender : renderSource lines 10 13 1 2 =
      joinNl [[' ', ' ', ' '] ++ padInt4 9 ++ ' ' :: e0,
              [' ', '>', ' '] ++ padInt4 10 ++ ' ' :: e1,
              [' ', ' ', ' '] ++ padInt4 11 ++ ' ' :: e2,
              [' ', ' ', ' '] ++ padInt4 12 ++ ' ' :: e3,
              [' ', ' ', ' '] ++ padInt4 13 ++ ' ' :: e4,
              [' ', ' ', ' '] ++ padInt4 14 ++ ' ' :: e5] := by
    simp only [renderSource]
    rw [hsplit, hD]
    rfl
  have hrows : splitNl (renderSource lines 10 13 1 2) =
      [[' ', ' ', ' '] ++ padInt4 9 ++ ' ' :: e0,
       [' ', '>', ' '] ++ padInt4 10 ++ ' ' :: e1,
       [' ', ' ', ' '] ++ padInt4 11 ++ ' ' :: e2,
       [' ', ' ', ' '] ++ padInt4 12 ++ ' ' :: e3,
       [' ', ' ', ' '] ++ padInt4 13 ++ ' ' :: e4,
       [' ', ' ', ' '] ++ padInt4 14 ++ ' ' :: e5] := by
    rw [hrender]
    refine splitNl_joinNl _ (by simp) ?_
    intro x hx
    simp only [List.mem_cons, List.not_mem_nil, or_false] at hx
    rcases hx with rfl | rfl | rfl | rfl | rfl | rfl
    · exact row_no_nl _ _ _ (by decide) (by decide) hne0
    · exact row_no_nl _ _ _ (by decide) (by decide) hne1
    · exact row_no_nl _ _ _ (by decide) (by decide) hne2
    · exact row_no_nl _ _ _ (by decide) (by decide) hne3
    · exact row_no_nl _ _ _ (by decide) (by decide) hne4
    · exact row_no_nl _ _ _ (by decide) (by decide) hne5
  refine ⟨renderSource lines 10 13 1 2, hok, by rw [hrows]; rfl, ?_⟩
  intro k hk
  interval_cases k
  · exact ⟨e0, hs0, by rw [hrows]; rfl⟩
  · exact ⟨e1, hs1, by rw [hrows]; rfl⟩
  · exact ⟨e2, hs2, by rw [hrows]; rfl⟩
  · exact ⟨e3, hs3, by rw [hrows]; rfl⟩
  · exact ⟨e4, hs4, by rw [hrows]; rfl⟩
  · exact ⟨e5, hs5, by rw [hrows]; rfl⟩

/-- Claim C1 witness: the amended theorem applied at wtFile, whose
breadth-first walk holds the line-10 spanning statement when it first
meets the line-13 node. -/
theorem C1_excerpt_rows_witness :
    ∃ out, getSource wtFile wtNodes 13 1 2 = .ok out ∧
      (splitNl out).length = 6 ∧
      ∀ k : Nat, k < 6 →
        ∃ rest, rest <:+ wtFile.getD (8 + k) [] ∧
          (splitNl out).getD k [] =
            (if k = 1 then [' ', '>', ' '] else [' ', ' ', ' ']) ++
              padInt4 (9 + (k : Int)) ++ ' ' :: rest :=
  C1_excerpt_rows wtFile wtNodes ⟨true, some 10⟩ (by decide) (by decide) rfl rfl

end Marbles
